import Mathlib

/-!
Verification of the per-frame card-scanner analysis pipeline
(`card_detector.py`, `distance_guide.py`, `quality_validator.py`,
`warp_transformer.py`) against its natural-language specification.

Machine floats (pixel coordinates, area fractions, thresholds) are embedded
as `ℚ`; image frames are embedded by their spatial shape.  The tracked
claims never inspect pixel content directly: the pixel-level multi-scale
contour search of `CardDetector._detect_at_scale` (pure OpenCV filtering)
enters `CardDetector.detect_card` only through the value of the local
variable `best_result` that line 85 of `card_detector.py` branches on, and
the blur/glare analyzers enter `QualityValidator.validate` only through
their boolean outcome and message.  Those per-frame outcomes are therefore
passed to the embedded functions as arguments, and every claim quantifies
over them; all tracker-state, hysteresis, gating and geometry logic is
translated from the source line by line.
-/

/-- A point: a pair of (float, embedded as rational) pixel coordinates.
First component x, second component y. -/
abbrev Pt : Type := ℚ × ℚ

/-- A camera frame, embedded by its spatial shape (`frame.shape[:2]`).
A frame is *empty* when `height = 0` or `width = 0`; an absent (Python
`None`) frame is embedded as `none : Option Frame`. -/
structure Frame where
  height : ℕ
  width : ℕ
deriving DecidableEq, Repr

/-- Mutable state (and configuration constants) of `CardDetector.__init__`
(`card_detector.py` lines 20-41), with the Python defaults.  The
`min_area_ratio`/`max_area_ratio` constructor arguments are named
`min_area_frac`/`max_area_frac` here. -/
structure CardDetector where
  min_area_frac : ℚ := 2/100
  max_area_frac : ℚ := 95/100
  last_detected_area : Option ℚ := none
  area_tolerance : ℚ := 1/2
  last_detected_corners : Option (List Pt) := none
  corner_smoothing_alpha : ℚ := 8/10
  consecutive_failures : ℕ := 0
  max_consecutive_failures : ℕ := 10
  has_ever_detected : Bool := false
deriving DecidableEq, Repr

/-- Exponential smoothing of corners (`card_detector.py` lines 93-96):
`alpha * last_detected_corners + (1 - alpha) * best_result`, elementwise. -/
def smooth_corners (alpha : ℚ) (last new : List Pt) : List Pt :=
  List.zipWith (fun p q => (alpha * p.1 + (1 - alpha) * q.1,
                            alpha * p.2 + (1 - alpha) * q.2)) last new

/-- `CardDetector.detect_card` (`card_detector.py` lines 43-118).

The multi-scale search of lines 57-83 is abstracted by the argument
`best_result : Option (List Pt)`: `none` when no scale yields a candidate
(`best_result is None` at line 85), `some c` when the search produced the
best-scoring candidate `c`.  Everything from the `if frame is None` guard
(line 54) and from line 85 on is translated literally.  Returns the
`(card_found, corners)` pair together with the detector state after the
call.  A `None` frame returns at lines 54-55 before the search runs and
before any state is touched.  This function models the calls on which the
search *completes*; the error path of the search — on a present but
zero-sized frame `_detect_at_scale` raises inside `cv2.cvtColor` before any
of the logic below runs — is modelled by `detect_card_checked` below. -/
def detect_card (d : CardDetector) (frame : Option Frame)
    (best_result : Option (List Pt)) : (Bool × Option (List Pt)) × CardDetector :=
  match frame with
  | none => ((false, none), d)
  | some _ =>
    match best_result with
    | some best =>
      -- successful detection (lines 85-101)
      let d1 := { d with consecutive_failures := 0, has_ever_detected := true }
      match d1.last_detected_corners with
      | some last =>
        let smoothed := smooth_corners d1.corner_smoothing_alpha last best
        ((true, some smoothed), { d1 with last_detected_corners := some smoothed })
      | none =>
        ((true, some best), { d1 with last_detected_corners := some best })
    | none =>
      -- no detection in this frame (lines 103-118); the two copies of the
      -- final reset-check mirror the fall-through after the retention `if`
      let d1 := { d with consecutive_failures := d.consecutive_failures + 1 }
      if d1.has_ever_detected ∧
          d1.consecutive_failures ≤ d1.max_consecutive_failures then
        match d1.last_detected_corners with
        | some last => ((true, some last), d1)
        | none =>
          if d1.consecutive_failures > d1.max_consecutive_failures then
            ((false, none), { d1 with last_detected_corners := none,
                                      has_ever_detected := false,
                                      consecutive_failures := 0 })
          else ((false, none), d1)
      else
        if d1.consecutive_failures > d1.max_consecutive_failures then
          ((false, none), { d1 with last_detected_corners := none,
                                    has_ever_detected := false,
                                    consecutive_failures := 0 })
        else ((false, none), d1)

/-- The `cv2.error` exception raised by OpenCV primitives; `emptyInput` is
the `!_src.empty()` assertion failure that `cv2.cvtColor` raises on a
zero-sized input image. -/
inductive CvError where
  | emptyInput
deriving DecidableEq, Repr

/-- The scale loop of `detect_card` (`card_detector.py` lines 57-83), as far
as its error behavior is concerned.  The first scale factor is 1.0
(line 37), so the loop's first action is `_detect_at_scale(frame, 1.0)`
(line 69), whose first statement `cv2.cvtColor(frame, cv2.COLOR_BGR2GRAY)`
(line 132) raises `cv2.error` on a zero-sized image (OpenCV asserts
`!_src.empty()`), before any of the post-search tracker logic runs.  On a
non-empty frame the loop completes, and its resulting `best_result` is the
`search_outcome` argument, abstracted exactly as in `detect_card`. -/
def multi_scale_search (f : Frame) (search_outcome : Option (List Pt)) :
    Except CvError (Option (List Pt)) :=
  if f.height = 0 ∨ f.width = 0 then Except.error CvError.emptyInput
  else Except.ok search_outcome

/-- `CardDetector.detect_card` including the error path of the per-frame
search: the `frame is None` guard (line 54) returns before the scale loop;
`detect_card` wraps no try/except around the loop, so the `cv2.error`
raised inside `_detect_at_scale` on a zero-sized frame propagates to the
caller; on a completed search the behavior is exactly `detect_card`. -/
def detect_card_checked (d : CardDetector) (frame : Option Frame)
    (best_result : Option (List Pt)) :
    Except CvError ((Bool × Option (List Pt)) × CardDetector) :=
  match frame with
  | none => Except.ok ((false, none), d)
  | some f =>
    match multi_scale_search f best_result with
    | Except.error e => Except.error e
    | Except.ok res => Except.ok (detect_card d (some f) res)

/-- Iterated `detect_card` calls on a sequence of present frames whose
per-frame search yields no candidate every time (the state thread of a run
of consecutive failed-detection frames). -/
def runFailures (d : CardDetector) (fs : ℕ → Frame) : ℕ → CardDetector
  | 0 => d
  | n + 1 => (detect_card (runFailures d fs n) (some (fs n)) none).2

/-- `np.argmin` over a list of values: the index of the first occurrence of
the minimum (`np.argmin` keeps the earliest index; a later element replaces
the running best only when strictly smaller). -/
def argminL : List ℚ → ℕ
  | [] => 0
  | x :: xs =>
    (xs.foldl
      (fun (acc : ℕ × ℚ × ℕ) v =>
        if v < acc.2.1 then (acc.2.2, v, acc.2.2 + 1)
        else (acc.1, acc.2.1, acc.2.2 + 1))
      ((0 : ℕ), x, (1 : ℕ))).1

/-- `np.argmax` over a list of values: the index of the first occurrence of
the maximum. -/
def argmaxL : List ℚ → ℕ
  | [] => 0
  | x :: xs =>
    (xs.foldl
      (fun (acc : ℕ × ℚ × ℕ) v =>
        if v > acc.2.1 then (acc.2.2, v, acc.2.2 + 1)
        else (acc.1, acc.2.1, acc.2.2 + 1))
      ((0 : ℕ), x, (1 : ℕ))).1

/-- `CardDetector._order_corners` (`card_detector.py` lines 399-425).
`sum_points` is x+y per corner; `diff_points` is `np.diff` along axis 1,
i.e. y−x per corner.  Output order: [top-left, top-right, bottom-right,
bottom-left] = [argmin sum, argmin diff, argmax sum, argmax diff]. -/
def order_corners (corners : List Pt) : List Pt :=
  let sum_points := corners.map (fun p => p.1 + p.2)
  let diff_points := corners.map (fun p => p.2 - p.1)
  let top_left := corners.getD (argminL sum_points) ((0 : ℚ), (0 : ℚ))
  let bottom_right := corners.getD (argmaxL sum_points) ((0 : ℚ), (0 : ℚ))
  let top_right := corners.getD (argminL diff_points) ((0 : ℚ), (0 : ℚ))
  let bottom_left := corners.getD (argmaxL diff_points) ((0 : ℚ), (0 : ℚ))
  [top_left, top_right, bottom_right, bottom_left]

/-- The three distance states of `DistanceGuide` (the strings `'optimal'`,
`'too_far'`, `'too_close'` stored in `self.last_status`). -/
inductive DStatus where
  | optimal
  | too_far
  | too_close
deriving DecidableEq, Repr

/-- Configuration constants of `DistanceGuide.__init__` (`distance_guide.py`
lines 23-44), with the Python defaults.  The camera-FOV fields are omitted:
they only feed the combined score, which `_determine_status_with_hysteresis`
ignores (its `combined_score` parameter is unused), so they never influence
the returned status, message or state.  The `*_area_ratio` constructor
arguments are named `*_area_frac` here. -/
structure DistanceGuide where
  min_area_frac : ℚ := 10/100
  max_area_frac : ℚ := 75/100
  optimal_min : ℚ := 25/100
  optimal_max : ℚ := 60/100
  hysteresis_threshold : ℚ := 2/100
deriving DecidableEq, Repr

/-- A `DistanceGuide()` constructed with all defaults. -/
def defaultDistanceGuide : DistanceGuide := {}

/-- The `new_status` computation of `_determine_status_with_hysteresis`
(`distance_guide.py` lines 195-205). -/
def new_status_of (g : DistanceGuide) (r : ℚ) : DStatus :=
  if r < g.min_area_frac then DStatus.too_far
  else if r > g.max_area_frac then DStatus.too_close
  else if g.optimal_min ≤ r ∧ r ≤ g.optimal_max then DStatus.optimal
  else if r < g.optimal_min then DStatus.too_far
  else DStatus.too_close

/-- `DistanceGuide._determine_status_with_hysteresis` (`distance_guide.py`
lines 193-239), as a function of the stored `last_status` and the area
ratio (its `combined_score` parameter is unused by the source).  Returns
the reported status together with the updated `last_status`.  Each early
`return self.last_status` leaves the stored state unchanged; every other
path stores the new status before returning it. -/
def determine_status_with_hysteresis (g : DistanceGuide) (last_status : Option DStatus)
    (r : ℚ) : DStatus × Option DStatus :=
  let ns := new_status_of g r
  match last_status with
  | none => (ns, some ns)
  | some ls =>
    if ns ≠ ls then
      if ls = DStatus.optimal then
        if ns = DStatus.too_far then
          if r ≥ g.optimal_min - g.hysteresis_threshold then (ls, some ls)
          else (ns, some ns)
        else if ns = DStatus.too_close then
          if r ≤ g.optimal_max + g.hysteresis_threshold then (ls, some ls)
          else (ns, some ns)
        else (ns, some ns)
      else
        if ns = DStatus.optimal then
          if ls = DStatus.too_far then
            if r < g.optimal_min + g.hysteresis_threshold then (ls, some ls)
            else (ns, some ns)
          else if ls = DStatus.too_close then
            if r > g.optimal_max - g.hysteresis_threshold then (ls, some ls)
            else (ns, some ns)
          else (ns, some ns)
        else (ns, some ns)
    else (ns, some ns)

/-- `cv2.contourArea` on a closed polygon: half the absolute value of the
shoelace sum `Σ (x_i * y_{i+1} − x_{i+1} * y_i)` with cyclic wraparound. -/
def contourArea (l : List Pt) : ℚ :=
  |(List.zipWith (fun p q => p.1 * q.2 - q.1 * p.2) l (l.rotate 1)).sum| / 2

/-- The `area_ratio` computed by `DistanceGuide.analyze_distance`
(`distance_guide.py` lines 70-75): `card_area / frame_area` when the frame
area is positive, else `0`. -/
def area_ratio_of (f : Frame) (c : List Pt) : ℚ :=
  if (0 : ℚ) < (f.height : ℚ) * (f.width : ℚ)
  then contourArea c / ((f.height : ℚ) * (f.width : ℚ))
  else 0

/-- The dict returned by `DistanceGuide.analyze_distance`: `status := none`
embeds the string `'unknown'`, `status := some s` one of the three real
states. -/
structure DistResult where
  is_optimal : Bool
  message : String
  status : Option DStatus
deriving DecidableEq, Repr

/-- `DistanceGuide.analyze_distance` (`distance_guide.py` lines 46-159),
restricted to what determines its returned dict: the early `None` guard
(lines 62-67), the area ratio (lines 70-75) and the hysteresis state
machine (line 139) plus the status-to-message mapping (lines 142-153).
The multi-factor `combined_score` of lines 77-136 is not modelled because
`_determine_status_with_hysteresis` ignores it, so it cannot influence any
field of the result.  The `'Adjust distance'` fallback branch of line 152
is unreachable (the hysteresis step only returns the three real states).
Returns the result dict together with the updated `last_status`. -/
def analyze_distance (g : DistanceGuide) (last_status : Option DStatus)
    (frame : Option Frame) (card_corners : Option (List Pt)) :
    DistResult × Option DStatus :=
  match frame, card_corners with
  | some f, some c =>
    let r := area_ratio_of f c
    let sp := determine_status_with_hysteresis g last_status r
    match sp.1 with
    | DStatus.optimal =>
      ({ is_optimal := true, message := "Distance OK", status := some sp.1 }, sp.2)
    | DStatus.too_far =>
      ({ is_optimal := false, message := "Move document closer",
         status := some sp.1 }, sp.2)
    | DStatus.too_close =>
      ({ is_optimal := false, message := "Move document farther",
         status := some sp.1 }, sp.2)
  | _, _ =>
    ({ is_optimal := false, message := "Card not detected", status := none },
     last_status)

/-- The stored `last_status` of a `DistanceGuide` after `n` calls of
`analyze_distance` on the (present) frames `fr 0, …, fr (n-1)`. -/
def distLastState (g : DistanceGuide) (s0 : Option DStatus)
    (fr : ℕ → Frame × List Pt) : ℕ → Option DStatus
  | 0 => s0
  | n + 1 =>
    (analyze_distance g (distLastState g s0 fr n) (some (fr n).1) (some (fr n).2)).2

/-- The status reported by the `(n+1)`-st `analyze_distance` call of a run
over the frame sequence `fr`, starting from stored state `s0`. -/
def distStatusAt (g : DistanceGuide) (s0 : Option DStatus)
    (fr : ℕ → Frame × List Pt) (n : ℕ) : Option DStatus :=
  ((analyze_distance g (distLastState g s0 fr n) (some (fr n).1)
      (some (fr n).2)).1).status

/-- The dict returned by `QualityValidator.validate`
(`quality_validator.py` lines 42-97). -/
structure QualityReport where
  is_valid : Bool
  card_detected : Bool
  is_sharp : Bool
  glare_acceptable : Bool
  distance_optimal : Bool
  is_centered : Bool
  messages : List String
  card_corners : Option (List Pt)
deriving DecidableEq, Repr

/-- `QualityValidator.validate` (`quality_validator.py` lines 23-97) as a
function of the per-frame outcomes of the five analyzers it invokes:
`detect_result` is `(card_found, card_corners)` from
`CardDetector.detect_card`; `blur_result` is `(is_blurry, v)` from
`BlurDetector.detect_blur` with `v` the `f'{blur_variance:.1f}'` text;
`glare_result` is `(is_acceptable, message)` from
`GlareDetector.detect_glare`; `distance_result` is
`(is_optimal, message)` from `DistanceGuide.analyze_distance`;
`centering_result` is `is_centered` from
`CenteringGuide.analyze_centering`.  Control flow (early return on no
card, message accumulation order, and the blocking rule of lines 87-92)
is translated literally. -/
def validate (detect_result : Bool × Option (List Pt))
    (blur_result : Bool × String) (glare_result : Bool × String)
    (distance_result : Bool × String) (centering_result : Bool) : QualityReport :=
  let card_found := detect_result.1
  let card_corners := detect_result.2
  if card_found = false then
    { is_valid := false, card_detected := false, is_sharp := false,
      glare_acceptable := false, distance_optimal := false, is_centered := false,
      messages := ["Card not detected"], card_corners := card_corners }
  else
    let is_sharp := !blur_result.1
    let glare_ok := glare_result.1
    let dist_ok := distance_result.1
    let is_valid := card_found && is_sharp && dist_ok
    let msgs :=
      (if blur_result.1
       then ["Image is blurry (variance: " ++ blur_result.2 ++ ")"] else [])
      ++ (if glare_ok then [] else [glare_result.2])
      ++ (if dist_ok then [] else [distance_result.2])
      ++ (if is_valid then ["Quality check passed"] else [])
    { is_valid := is_valid, card_detected := card_found, is_sharp := is_sharp,
      glare_acceptable := glare_ok, distance_optimal := dist_ok,
      is_centered := centering_result, messages := msgs,
      card_corners := card_corners }

/-- Output-size state of `WarpTransformer.__init__` (`warp_transformer.py`
lines 17-38) on the default path (`output_width`/`output_height` not
given): dimensions are `int(CARD_*_MM / 25.4 * DPI)` with
`CARD_WIDTH_MM = 85.6`, `CARD_HEIGHT_MM = 53.98`; Python `int()` on these
positive values is the floor. -/
structure WarpTransformer where
  output_width : ℤ
  output_height : ℤ
deriving DecidableEq, Repr

/-- `WarpTransformer(dpi=dpi)` with derived output dimensions
(`warp_transformer.py` lines 30-35); `dpi = 100` is the class default. -/
def mkWarpTransformer (dpi : ℕ) : WarpTransformer :=
  { output_width := ⌊(856/10 : ℚ) / (254/10) * dpi⌋,
    output_height := ⌊(5398/100 : ℚ) / (254/10) * dpi⌋ }

/-- `WarpTransformer.warp_card` (`warp_transformer.py` lines 40-83),
restricted to the shape of its result: `none` for an absent frame or
absent corners (line 51-52) and when the perspective transform fails (the
`except` path, modelled by `transform_ok = false`); otherwise the warped
image, represented by its `(width, height)` — `cv2.warpPerspective` is
called with `dsize = (output_width, output_height)` (line 74) and returns
an image of exactly that size regardless of the input frame and corners. -/
def warp_card (t : WarpTransformer) (frame : Option Frame)
    (card_corners : Option (List Pt)) (transform_ok : Bool) : Option (ℤ × ℤ) :=
  match frame, card_corners with
  | some _, some _ =>
    if transform_ok then some (t.output_width, t.output_height) else none
  | _, _ => none

/-- A tracker state that has detected before and currently retains a
smoothed quadrilateral (used as the concrete state for the C8
counterexample). -/
def c8State : CardDetector :=
  { has_ever_detected := true,
    last_detected_corners := some [((1 : ℚ), (1 : ℚ)), ((9 : ℚ), (1 : ℚ)),
                                   ((9 : ℚ), (6 : ℚ)), ((1 : ℚ), (6 : ℚ))] }

/-- The empty (zero-sized) frame. -/
def emptyFrame : Frame := { height := 0, width := 0 }

/-- A concrete axis-aligned square quadrilateral, listed in a scrambled
order (input for the C5 counterexample and witnesses). -/
def c5Quad : List Pt :=
  [((10 : ℚ), (0 : ℚ)), ((0 : ℚ), (10 : ℚ)), ((10 : ℚ), (10 : ℚ)),
   ((0 : ℚ), (0 : ℚ))]

/-- A concrete skewed quadrilateral with unique extremizers of x+y and y−x
(input for the C6 witness). -/
def c6Quad : List Pt :=
  [((0 : ℚ), (0 : ℚ)), ((4 : ℚ), (1 : ℚ)), ((5 : ℚ), (6 : ℚ)), ((1 : ℚ), (5 : ℚ))]

/-- The frame/corner sequence used by the C3 witness: a 10×10 frame with a
card of area 24 on even frames (ratio 24%) and of area 26 on odd frames
(ratio 26%), oscillating around the 25% optimal-min boundary. -/
def c3FrameSeq : ℕ → Frame × List Pt := fun n =>
  if n % 2 = 0 then
    ({ height := 10, width := 10 },
     [((0 : ℚ), (0 : ℚ)), ((6 : ℚ), (0 : ℚ)), ((6 : ℚ), (4 : ℚ)), ((0 : ℚ), (4 : ℚ))])
  else
    ({ height := 10, width := 10 },
     [((0 : ℚ), (0 : ℚ)), ((13/2 : ℚ), (0 : ℚ)), ((13/2 : ℚ), (4 : ℚ)),
      ((0 : ℚ), (4 : ℚ))])

/-! ### Helper lemmas -/

lemma exists_four_of_length (Q : List Pt) (h : Q.length = 4) :
    ∃ a b c d, Q = [a, b, c, d] := by
  rcases Q with _ | ⟨a, Q⟩
  · simp at h
  rcases Q with _ | ⟨b, Q⟩
  · simp at h
  rcases Q with _ | ⟨c, Q⟩
  · simp at h
  rcases Q with _ | ⟨d, Q⟩
  · simp at h
  rcases Q with _ | ⟨e, Q⟩
  · exact ⟨a, b, c, d, rfl⟩
  · simp at h

lemma getD_argminL_four (f : Pt → ℚ) (q0 q1 q2 q3 x : Pt)
    (hx : x = q0 ∨ x = q1 ∨ x = q2 ∨ x = q3)
    (h : ∀ q, (q = q0 ∨ q = q1 ∨ q = q2 ∨ q = q3) → q ≠ x → f x < f q) :
    [q0, q1, q2, q3].getD (argminL ([q0, q1, q2, q3].map f)) ((0 : ℚ), (0 : ℚ))
      = x := by
  rcases hx with rfl | rfl | rfl | rfl <;>
    (simp only [List.map_cons, List.map_nil, argminL, List.foldl] ;
     split_ifs <;>
       (norm_num [List.getD] ;
        try (by_contra hne ; have hlt := h _ (by tauto) hne ; linarith)))

lemma getD_argmaxL_four (f : Pt → ℚ) (q0 q1 q2 q3 x : Pt)
    (hx : x = q0 ∨ x = q1 ∨ x = q2 ∨ x = q3)
    (h : ∀ q, (q = q0 ∨ q = q1 ∨ q = q2 ∨ q = q3) → q ≠ x → f q < f x) :
    [q0, q1, q2, q3].getD (argmaxL ([q0, q1, q2, q3].map f)) ((0 : ℚ), (0 : ℚ))
      = x := by
  rcases hx with rfl | rfl | rfl | rfl <;>
    (simp only [List.map_cons, List.map_nil, argmaxL, List.foldl] ;
     split_ifs <;>
       (norm_num [List.getD] ;
        try (by_contra hne ; have hlt := h _ (by tauto) hne ; linarith)))

lemma order_corners_four_eq (q0 q1 q2 q3 a b c d : Pt)
    (haQ : a = q0 ∨ a = q1 ∨ a = q2 ∨ a = q3)
    (ha : ∀ q, (q = q0 ∨ q = q1 ∨ q = q2 ∨ q = q3) → q ≠ a →
      a.1 + a.2 < q.1 + q.2)
    (hbQ : b = q0 ∨ b = q1 ∨ b = q2 ∨ b = q3)
    (hb : ∀ q, (q = q0 ∨ q = q1 ∨ q = q2 ∨ q = q3) → q ≠ b →
      b.2 - b.1 < q.2 - q.1)
    (hcQ : c = q0 ∨ c = q1 ∨ c = q2 ∨ c = q3)
    (hc : ∀ q, (q = q0 ∨ q = q1 ∨ q = q2 ∨ q = q3) → q ≠ c →
      q.1 + q.2 < c.1 + c.2)
    (hdQ : d = q0 ∨ d = q1 ∨ d = q2 ∨ d = q3)
    (hd : ∀ q, (q = q0 ∨ q = q1 ∨ q = q2 ∨ q = q3) → q ≠ d →
      q.2 - q.1 < d.2 - d.1) :
    order_corners [q0, q1, q2, q3] = [a, b, c, d] := by
  simp only [order_corners]
  rw [getD_argminL_four (fun p => p.1 + p.2) q0 q1 q2 q3 a haQ ha,
      getD_argminL_four (fun p => p.2 - p.1) q0 q1 q2 q3 b hbQ hb,
      getD_argmaxL_four (fun p => p.1 + p.2) q0 q1 q2 q3 c hcQ hc,
      getD_argmaxL_four (fun p => p.2 - p.1) q0 q1 q2 q3 d hdQ hd]

lemma detect_card_fail_no_ever (d : CardDetector) (f : Frame)
    (h : d.has_ever_detected = false) :
    (detect_card d (some f) none).1 = (false, none) ∧
      (detect_card d (some f) none).2.has_ever_detected = false := by
  simp only [detect_card, h]
  split_ifs <;> simp_all

lemma runFailures_no_ever (d : CardDetector) (fs : ℕ → Frame)
    (h : d.has_ever_detected = false) :
    ∀ n, (runFailures d fs n).has_ever_detected = false := by
  intro n
  induction n with
  | zero => exact h
  | succ n ih => exact (detect_card_fail_no_ever _ _ ih).2

lemma hyst_second_eq (g : DistanceGuide) (s : Option DStatus) (r : ℚ) :
    (determine_status_with_hysteresis g s r).2
      = some (determine_status_with_hysteresis g s r).1 := by
  rcases s with _ | ls
  · rfl
  · simp only [determine_status_with_hysteresis]
    split_ifs <;> rfl

lemma analyze_distance_status (g : DistanceGuide) (s : Option DStatus) (f : Frame)
    (c : List Pt) :
    ((analyze_distance g s (some f) (some c)).1).status
        = some (determine_status_with_hysteresis g s (area_ratio_of f c)).1 ∧
      (analyze_distance g s (some f) (some c)).2
        = (determine_status_with_hysteresis g s (area_ratio_of f c)).2 := by
  rcases h : (determine_status_with_hysteresis g s (area_ratio_of f c)).1 <;>
    simp [analyze_distance, h]

lemma hyst_fix_band_minarea (a b : ℚ)
    (ha1 : 8/100 < a) (ha2 : a < 10/100) (hb1 : 10/100 < b) (hb2 : b < 12/100)
    (s : Option DStatus) (x y : ℚ) (hx : x = a ∨ x = b) (hy : y = a ∨ y = b) :
    (determine_status_with_hysteresis defaultDistanceGuide
        (some (determine_status_with_hysteresis defaultDistanceGuide s x).1) y).1
      = (determine_status_with_hysteresis defaultDistanceGuide s x).1 := by
  have hna : new_status_of defaultDistanceGuide a = DStatus.too_far := by
    simp only [new_status_of, defaultDistanceGuide]
    rw [if_pos (by norm_num ; linarith)]
  have hnb : new_status_of defaultDistanceGuide b = DStatus.too_far := by
    simp only [new_status_of, defaultDistanceGuide]
    rw [if_neg (by norm_num ; linarith), if_neg (by norm_num ; linarith),
        if_neg (by rintro ⟨h1, h2⟩ ; norm_num at h1 ; linarith),
        if_pos (by norm_num ; linarith)]
  have hf1 : defaultDistanceGuide.optimal_min = 25/100 := rfl
  have hf3 : defaultDistanceGuide.hysteresis_threshold = 2/100 := rfl
  have hsa : ∀ t, (determine_status_with_hysteresis defaultDistanceGuide t a).1
      = DStatus.too_far := by
    intro t
    rcases t with _ | ls
    · simp [determine_status_with_hysteresis, hna]
    · rcases ls <;> simp [determine_status_with_hysteresis, hna, hf1, hf3] <;>
        split_ifs <;> first | rfl | (norm_num at * ; linarith)
  have hsb : ∀ t, (determine_status_with_hysteresis defaultDistanceGuide t b).1
      = DStatus.too_far := by
    intro t
    rcases t with _ | ls
    · simp [determine_status_with_hysteresis, hnb]
    · rcases ls <;> simp [determine_status_with_hysteresis, hnb, hf1, hf3] <;>
        split_ifs <;> first | rfl | (norm_num at * ; linarith)
  rcases hx with rfl | rfl <;> rcases hy with rfl | rfl <;> simp only [hsa, hsb]

lemma hyst_fix_band_omin (a b : ℚ)
    (ha1 : 23/100 < a) (ha2 : a < 25/100) (hb1 : 25/100 < b) (hb2 : b < 27/100)
    (s : Option DStatus) (x y : ℚ) (hx : x = a ∨ x = b) (hy : y = a ∨ y = b) :
    (determine_status_with_hysteresis defaultDistanceGuide
        (some (determine_status_with_hysteresis defaultDistanceGuide s x).1) y).1
      = (determine_status_with_hysteresis defaultDistanceGuide s x).1 := by
  have hna : new_status_of defaultDistanceGuide a = DStatus.too_far := by
    simp only [new_status_of, defaultDistanceGuide]
    rw [if_neg (by norm_num ; linarith), if_neg (by norm_num ; linarith),
        if_neg (by rintro ⟨h1, h2⟩ ; norm_num at h1 ; linarith),
        if_pos (by norm_num ; linarith)]
  have hnb : new_status_of defaultDistanceGuide b = DStatus.optimal := by
    simp only [new_status_of, defaultDistanceGuide]
    rw [if_neg (by norm_num ; linarith), if_neg (by norm_num ; linarith),
        if_pos (by constructor <;> norm_num <;> linarith)]
  have hf1 : defaultDistanceGuide.optimal_min = 25/100 := rfl
  have hf2 : defaultDistanceGuide.optimal_max = 60/100 := rfl
  have hf3 : defaultDistanceGuide.hysteresis_threshold = 2/100 := rfl
  have hsa : ∀ t, (determine_status_with_hysteresis defaultDistanceGuide t a).1
      = if t = some DStatus.optimal then DStatus.optimal else DStatus.too_far := by
    intro t
    rcases t with _ | ls
    · simp [determine_status_with_hysteresis, hna]
    · rcases ls <;> simp [determine_status_with_hysteresis, hna, hf1, hf2, hf3] <;>
        split_ifs <;> first | rfl | (norm_num at * ; linarith)
  have hsb : ∀ t, (determine_status_with_hysteresis defaultDistanceGuide t b).1
      = if t = some DStatus.too_far then DStatus.too_far else DStatus.optimal := by
    intro t
    rcases t with _ | ls
    · simp [determine_status_with_hysteresis, hnb]
    · rcases ls <;> simp [determine_status_with_hysteresis, hnb, hf1, hf2, hf3] <;>
        split_ifs <;> first | rfl | (norm_num at * ; linarith)
  rcases hx with rfl | rfl <;> rcases hy with rfl | rfl <;>
    simp only [hsa, hsb] <;> split_ifs <;> simp_all

lemma hyst_fix_band_omax (a b : ℚ)
    (ha1 : 58/100 < a) (ha2 : a < 60/100) (hb1 : 60/100 < b) (hb2 : b < 62/100)
    (s : Option DStatus) (x y : ℚ) (hx : x = a ∨ x = b) (hy : y = a ∨ y = b) :
    (determine_status_with_hysteresis defaultDistanceGuide
        (some (determine_status_with_hysteresis defaultDistanceGuide s x).1) y).1
      = (determine_status_with_hysteresis defaultDistanceGuide s x).1 := by
  have hna : new_status_of defaultDistanceGuide a = DStatus.optimal := by
    simp only [new_status_of, defaultDistanceGuide]
    rw [if_neg (by norm_num ; linarith), if_neg (by norm_num ; linarith),
        if_pos (by constructor <;> norm_num <;> linarith)]
  have hnb : new_status_of defaultDistanceGuide b = DStatus.too_close := by
    simp only [new_status_of, defaultDistanceGuide]
    rw [if_neg (by norm_num ; linarith), if_neg (by norm_num ; linarith),
        if_neg (by rintro ⟨h1, h2⟩ ; norm_num at h2 ; linarith),
        if_neg (by norm_num ; linarith)]
  have hf1 : defaultDistanceGuide.optimal_min = 25/100 := rfl
  have hf2 : defaultDistanceGuide.optimal_max = 60/100 := rfl
  have hf3 : defaultDistanceGuide.hysteresis_threshold = 2/100 := rfl
  have hsa : ∀ t, (determine_status_with_hysteresis defaultDistanceGuide t a).1
      = if t = some DStatus.too_close then DStatus.too_close
        else DStatus.optimal := by
    intro t
    rcases t with _ | ls
    · simp [determine_status_with_hysteresis, hna]
    · rcases ls <;> simp [determine_status_with_hysteresis, hna, hf1, hf2, hf3] <;>
        split_ifs <;> first | rfl | (norm_num at * ; linarith)
  have hsb : ∀ t, (determine_status_with_hysteresis defaultDistanceGuide t b).1
      = if t = some DStatus.optimal then DStatus.optimal
        else DStatus.too_close := by
    intro t
    rcases t with _ | ls
    · simp [determine_status_with_hysteresis, hnb]
    · rcases ls <;> simp [determine_status_with_hysteresis, hnb, hf1, hf2, hf3] <;>
        split_ifs <;> first | rfl | (norm_num at * ; linarith)
  rcases hx with rfl | rfl <;> rcases hy with rfl | rfl <;>
    simp only [hsa, hsb] <;> split_ifs <;> simp_all

lemma hyst_fix_band_maxarea (a b : ℚ)
    (ha1 : 73/100 < a) (ha2 : a < 75/100) (hb1 : 75/100 < b) (hb2 : b < 77/100)
    (s : Option DStatus) (x y : ℚ) (hx : x = a ∨ x = b) (hy : y = a ∨ y = b) :
    (determine_status_with_hysteresis defaultDistanceGuide
        (some (determine_status_with_hysteresis defaultDistanceGuide s x).1) y).1
      = (determine_status_with_hysteresis defaultDistanceGuide s x).1 := by
  have hna : new_status_of defaultDistanceGuide a = DStatus.too_close := by
    simp only [new_status_of, defaultDistanceGuide]
    rw [if_neg (by norm_num ; linarith), if_neg (by norm_num ; linarith),
        if_neg (by rintro ⟨h1, h2⟩ ; norm_num at h2 ; linarith),
        if_neg (by norm_num ; linarith)]
  have hnb : new_status_of defaultDistanceGuide b = DStatus.too_close := by
    simp only [new_status_of, defaultDistanceGuide]
    rw [if_neg (by norm_num ; linarith), if_pos (by norm_num ; linarith)]
  have hf2 : defaultDistanceGuide.optimal_max = 60/100 := rfl
  have hf3 : defaultDistanceGuide.hysteresis_threshold = 2/100 := rfl
  have hsa : ∀ t, (determine_status_with_hysteresis defaultDistanceGuide t a).1
      = DStatus.too_close := by
    intro t
    rcases t with _ | ls
    · simp [determine_status_with_hysteresis, hna]
    · rcases ls <;> simp [determine_status_with_hysteresis, hna, hf2, hf3] <;>
        split_ifs <;> first | rfl | (norm_num at * ; linarith)
  have hsb : ∀ t, (determine_status_with_hysteresis defaultDistanceGuide t b).1
      = DStatus.too_close := by
    intro t
    rcases t with _ | ls
    · simp [determine_status_with_hysteresis, hnb]
    · rcases ls <;> simp [determine_status_with_hysteresis, hnb, hf2, hf3] <;>
        split_ifs <;> first | rfl | (norm_num at * ; linarith)
  rcases hx with rfl | rfl <;> rcases hy with rfl | rfl <;> simp only [hsa, hsb]

/-! ### Claim theorems -/

/-- C1 (retention law): for every tracker state with
`has_ever_detected = true`, `consecutive_failures < max_consecutive_failures`
and a stored smoothed quadrilateral, a `detect_card` call whose per-frame
search yields no candidate still returns `found = true` together with the
previously retained (stored smoothed) corners. -/
theorem c1_retention_law (d : CardDetector) (f : Frame) (q : List Pt)
    (h1 : d.has_ever_detected = true)
    (h2 : d.consecutive_failures < d.max_consecutive_failures)
    (h3 : d.last_detected_corners = some q) :
    (detect_card d (some f) none).1 = (true, some q) := by
  simp [detect_card, h1, h3, Nat.succ_le_of_lt h2]

/-- Witness for C1: a concrete retaining state with 3 of 10 failures used. -/
theorem c1_retention_law_w :
    (detect_card
        { has_ever_detected := true, consecutive_failures := 3,
          last_detected_corners := some [((1 : ℚ), (2 : ℚ))] }
        (some { height := 5, width := 5 }) none).1
      = (true, some [((1 : ℚ), (2 : ℚ))]) :=
  c1_retention_law _ _ _ rfl (by norm_num) rfl

/-- C2 (reset law): once `consecutive_failures` exceeds
`max_consecutive_failures` on a failed-detection call, `detect_card` clears
the stored corners and `has_ever_detected`, resets the failure counter to 0
and returns `found = false`; and every subsequent call whose per-frame
search also yields no candidate keeps returning `found = false`. -/
theorem c2_reset_law (d : CardDetector) (fs : ℕ → Frame)
    (hcf : d.max_consecutive_failures ≤ d.consecutive_failures) :
    detect_card d (some (fs 0)) none
        = ((false, none),
           { d with last_detected_corners := none, has_ever_detected := false,
                    consecutive_failures := 0 }) ∧
      ∀ n, (detect_card (runFailures (detect_card d (some (fs 0)) none).2
              (fun k => fs (k + 1)) n) (some (fs (n + 1))) none).1
          = (false, none) := by
  have hgt : d.max_consecutive_failures < d.consecutive_failures + 1 := by omega
  have hfirst : detect_card d (some (fs 0)) none
      = ((false, none),
         { d with last_detected_corners := none, has_ever_detected := false,
                  consecutive_failures := 0 }) := by
    simp [detect_card, hgt, Nat.not_le.mpr hgt]
  refine ⟨hfirst, ?_⟩
  intro n
  have h2 : (detect_card d (some (fs 0)) none).2.has_ever_detected = false := by
    rw [hfirst]
  exact (detect_card_fail_no_ever _ _ (runFailures_no_ever _ _ h2 n)).1

/-- Witness for C2: a concrete state with the failure budget exhausted
(`consecutive_failures = 10 = max`), followed by two more failing frames. -/
theorem c2_reset_law_w :
    (detect_card
        { has_ever_detected := true, consecutive_failures := 10,
          last_detected_corners := some [((1 : ℚ), (2 : ℚ))] }
        (some { height := 5, width := 5 }) none
      = ((false, none),
         { has_ever_detected := false, consecutive_failures := 0,
           last_detected_corners := none })) ∧
      (detect_card (runFailures
          (detect_card
            { has_ever_detected := true, consecutive_failures := 10,
              last_detected_corners := some [((1 : ℚ), (2 : ℚ))] }
            (some { height := 5, width := 5 }) none).2
          (fun _ => { height := 5, width := 5 }) 1)
        (some { height := 5, width := 5 }) none).1 = (false, none) :=
  ⟨(c2_reset_law
      { has_ever_detected := true, consecutive_failures := 10,
        last_detected_corners := some [((1 : ℚ), (2 : ℚ))] }
      (fun _ => { height := 5, width := 5 }) (by norm_num)).1,
   (c2_reset_law
      { has_ever_detected := true, consecutive_failures := 10,
        last_detected_corners := some [((1 : ℚ), (2 : ℚ))] }
      (fun _ => { height := 5, width := 5 }) (by norm_num)).2 1⟩

/-- C9 (implicit result invariant): for every input frame, tracker state and
per-frame search outcome, `detect_card` returns `found = true` exactly when
the returned corners are non-null. -/
theorem c9_found_iff_corners (d : CardDetector) (frame : Option Frame)
    (best_result : Option (List Pt)) :
    (detect_card d frame best_result).1.1 = true
      ↔ ((detect_card d frame best_result).1.2).isSome = true := by
  rcases frame with _ | f
  · simp [detect_card]
  rcases best_result with _ | c
  · rcases h : d.last_detected_corners with _ | q <;>
      simp [detect_card, h] <;> split_ifs <;> simp
  · rcases h : d.last_detected_corners with _ | q <;> simp [detect_card, h]

/-- C10 (implicit frame condition): `detect_card` on a null frame returns
`(false, none)` and leaves the entire tracker state unchanged —
`consecutive_failures`, `last_detected_corners`, `last_detected_area` and
`has_ever_detected` keep their prior values — so a null frame consumes none
of the grace-period failure budget, in every starting state. -/
theorem c10_null_frame_no_effect (d : CardDetector)
    (best_result : Option (List Pt)) :
    detect_card d none best_result = ((false, none), d) := rfl

/-- C8 counterexample: an empty (zero-sized, but not `None`) frame is not
caught by the `frame is None` guard; the call enters the scale loop, where
`_detect_at_scale`'s first statement `cv2.cvtColor` rejects the zero-sized
image, so `detect_card` raises `cv2.error` — it neither avoids raising nor
returns `found = false` as the claim requires of every tracker state. -/
theorem c8_counterexample :
    detect_card_checked c8State (some emptyFrame) none
      = Except.error CvError.emptyInput := rfl

/-- C8 amended: for a null (absent) frame `detect_card` never raises and
returns `found = false` with the tracker state unchanged, in every tracker
state; an empty (zero-sized) frame is *not* specially guarded — the call
enters the multi-scale search and propagates the `cv2.error` that
`cv2.cvtColor` raises on a zero-sized image (there is no surrounding
try/except), in every tracker state. -/
theorem c8_null_guard (d : CardDetector) (best_result : Option (List Pt)) :
    detect_card_checked d none best_result = Except.ok ((false, none), d) ∧
      detect_card_checked d (some emptyFrame) best_result
        = Except.error CvError.emptyInput :=
  ⟨rfl, rfl⟩

/-- C3 (hysteresis stability): with the default `DistanceGuide`
configuration, for every starting `last_status` and every sequence of
present frames whose card-area/frame-area ratio always equals one of two
values `a < b` that straddle a band boundary by less than the hysteresis
margin (2%), `analyze_distance` reports the same status on every frame of
the sequence — the status never toggles between consecutive frames. -/
theorem c3_hysteresis_stable
    (B a b : ℚ) (hB : B = 10/100 ∨ B = 25/100 ∨ B = 60/100 ∨ B = 75/100)
    (ha1 : B - 2/100 < a) (ha2 : a < B) (hb1 : B < b) (hb2 : b < B + 2/100)
    (s0 : Option DStatus) (fr : ℕ → Frame × List Pt)
    (hfr : ∀ n, area_ratio_of (fr n).1 (fr n).2 = a ∨
                area_ratio_of (fr n).1 (fr n).2 = b) :
    ∀ n, distStatusAt defaultDistanceGuide s0 fr (n + 1)
        = distStatusAt defaultDistanceGuide s0 fr n := by
  have key : ∀ (s : Option DStatus) (x y : ℚ), (x = a ∨ x = b) → (y = a ∨ y = b) →
      (determine_status_with_hysteresis defaultDistanceGuide
          (some (determine_status_with_hysteresis defaultDistanceGuide s x).1) y).1
        = (determine_status_with_hysteresis defaultDistanceGuide s x).1 := by
    rcases hB with rfl | rfl | rfl | rfl
    · exact fun s x y hx hy =>
        hyst_fix_band_minarea a b (by linarith) ha2 hb1 (by linarith) s x y hx hy
    · exact fun s x y hx hy =>
        hyst_fix_band_omin a b (by linarith) ha2 hb1 (by linarith) s x y hx hy
    · exact fun s x y hx hy =>
        hyst_fix_band_omax a b (by linarith) ha2 hb1 (by linarith) s x y hx hy
    · exact fun s x y hx hy =>
        hyst_fix_band_maxarea a b (by linarith) ha2 hb1 (by linarith) s x y hx hy
  intro n
  have hstate : distLastState defaultDistanceGuide s0 fr (n + 1)
      = some (determine_status_with_hysteresis defaultDistanceGuide
          (distLastState defaultDistanceGuide s0 fr n)
          (area_ratio_of (fr n).1 (fr n).2)).1 := by
    rw [distLastState,
        (analyze_distance_status defaultDistanceGuide _ (fr n).1 (fr n).2).2,
        hyst_second_eq]
  rw [distStatusAt, distStatusAt,
      (analyze_distance_status defaultDistanceGuide _ (fr (n + 1)).1 (fr (n + 1)).2).1,
      (analyze_distance_status defaultDistanceGuide _ (fr n).1 (fr n).2).1,
      hstate, key _ _ _ (hfr n) (hfr (n + 1))]

/-- Witness for C3: ratios oscillating between 24% and 26% around the 25%
optimal-min boundary, starting from an undetermined state. -/
theorem c3_hysteresis_stable_w :
    distStatusAt defaultDistanceGuide none c3FrameSeq 1
      = distStatusAt defaultDistanceGuide none c3FrameSeq 0 :=
  c3_hysteresis_stable (25/100) (24/100) (26/100)
    (Or.inr (Or.inl rfl)) (by norm_num) (by norm_num) (by norm_num) (by norm_num)
    none c3FrameSeq
    (by
      intro n
      rcases Nat.mod_two_eq_zero_or_one n with h | h <;>
        simp [c3FrameSeq, h, area_ratio_of, contourArea, List.rotate] <;> norm_num)
    0

/-- C4 (QualityGate blocking rule): the report returned by
`QualityValidator.validate` always satisfies
`is_valid = (card_detected && is_sharp && distance_optimal)`, and for any
two runs whose detection, sharpness and distance outcomes agree, `is_valid`
agrees regardless of the glare and centering outcomes. -/
theorem c4_blocking_rule (detect_result : Bool × Option (List Pt))
    (blur_result glare_result distance_result : Bool × String)
    (centering_result : Bool) :
    ((validate detect_result blur_result glare_result distance_result
        centering_result).is_valid
      = ((validate detect_result blur_result glare_result distance_result
            centering_result).card_detected
         && (validate detect_result blur_result glare_result distance_result
              centering_result).is_sharp
         && (validate detect_result blur_result glare_result distance_result
              centering_result).distance_optimal)) ∧
    (∀ (detect2 : Bool × Option (List Pt)) (blur2 glare2 dist2 : Bool × String)
        (cent2 : Bool),
      detect_result.1 = detect2.1 → blur_result.1 = blur2.1 →
      distance_result.1 = dist2.1 →
      (validate detect_result blur_result glare_result distance_result
          centering_result).is_valid
        = (validate detect2 blur2 glare2 dist2 cent2).is_valid) := by
  constructor
  · rcases detect_result with ⟨found, corners⟩
    cases found <;> simp [validate]
  · intro detect2 blur2 glare2 dist2 cent2 h1 h2 h3
    rcases detect_result with ⟨found, corners⟩
    rcases detect2 with ⟨found2, corners2⟩
    rcases blur_result with ⟨blurry, vtext⟩
    rcases blur2 with ⟨blurry2, vtext2⟩
    rcases distance_result with ⟨distok, dmsg⟩
    rcases dist2 with ⟨distok2, dmsg2⟩
    simp only at h1 h2 h3
    subst h1
    subst h2
    subst h3
    cases found <;> cases blurry <;> cases distok <;> simp [validate]

/-- Witness for C4: two runs agreeing on detection/sharpness/distance but
with opposite glare and centering outcomes produce the same `is_valid`. -/
theorem c4_blocking_rule_w :
    (validate (true, some [((1 : ℚ), (1 : ℚ))]) (false, "120.0")
        (false, "Excessive glare detected") (true, "Distance OK") false).is_valid
      = (validate (true, some [((1 : ℚ), (1 : ℚ))]) (false, "120.0")
          (true, "") (true, "Distance OK") true).is_valid :=
  (c4_blocking_rule (true, some [((1 : ℚ), (1 : ℚ))]) (false, "120.0")
      (false, "Excessive glare detected") (true, "Distance OK") false).2
    (true, some [((1 : ℚ), (1 : ℚ))]) (false, "120.0") (true, "")
    (true, "Distance OK") true rfl rfl rfl

/-- C7 (rectifier output size): for every DPI, frame and corner input on
which the perspective transform succeeds, `warp_card` returns an image of
width `⌊DPI/25.4 × 85.60⌋` and height `⌊DPI/25.4 × 53.98⌋` pixels,
independent of the frame and of the corner positions; at the default
DPI of 100 this is 337 × 212. -/
theorem c7_warp_dimensions (dpi : ℕ) (f : Frame) (c : List Pt) :
    warp_card (mkWarpTransformer dpi) (some f) (some c) true
        = some (⌊(dpi : ℚ) / (254/10) * (856/10)⌋,
                ⌊(dpi : ℚ) / (254/10) * (5398/100)⌋) ∧
      warp_card (mkWarpTransformer 100) (some f) (some c) true
        = some (337, 212) := by
  constructor
  · have e1 : (856/10 : ℚ) / (254/10) * dpi = (dpi : ℚ) / (254/10) * (856/10) := by
      ring
    have e2 : (5398/100 : ℚ) / (254/10) * dpi
        = (dpi : ℚ) / (254/10) * (5398/100) := by
      ring
    simp [warp_card, mkWarpTransformer, e1, e2]
  · have e1 : (856/10 : ℚ) / (254/10) * (100 : ℕ) = 42800/127 := by norm_num
    have e2 : (5398/100 : ℚ) / (254/10) * (100 : ℕ) = 2699/127 * 10 := by norm_num
    simp only [warp_card, mkWarpTransformer, e1, e2, if_pos]
    norm_num [Int.floor_eq_iff]

/-- C5 counterexample: on the concrete quadrilateral `c5Quad` the ordering
step returns `(10, 0)` in the top-right (second) position, but `(10, 0)` is
not the point of minimal (x−y) in the input — `(0, 10)` has a strictly
smaller x−y — so the claimed criterion "top-right = minimal (x−y)" is false
of the code. -/
theorem c5_counterexample :
    (order_corners c5Quad).getD 1 ((0 : ℚ), (0 : ℚ)) = ((10 : ℚ), (0 : ℚ)) ∧
      ¬ (∀ q ∈ c5Quad,
          ((order_corners c5Quad).getD 1 ((0 : ℚ), (0 : ℚ))).1
              - ((order_corners c5Quad).getD 1 ((0 : ℚ), (0 : ℚ))).2
            ≤ q.1 - q.2) := by
  have h : order_corners c5Quad
      = [((0 : ℚ), (0 : ℚ)), ((10 : ℚ), (0 : ℚ)), ((10 : ℚ), (10 : ℚ)),
         ((0 : ℚ), (10 : ℚ))] := by
    norm_num [c5Quad, order_corners, argminL, argmaxL]
  constructor
  · rw [h]
    rfl
  · intro hall
    have h2 := hall ((0 : ℚ), (10 : ℚ)) (by simp [c5Quad])
    rw [h] at h2
    norm_num at h2

/-- C5 amended (canonical corner order): for every 4-point quadrilateral
with a unique extremizer of each ordering criterion, the ordering step
returns [top-left, top-right, bottom-right, bottom-left] where top-left is
the point of minimal (x+y), bottom-right the point of maximal (x+y),
top-right the point of *maximal* (x−y), and bottom-left the point of
*minimal* (x−y) — the top-right/bottom-left criteria are the reverse of
the ones the claim states. -/
theorem c5_canonical_order (Q : List Pt) (a b c d : Pt) (h4 : Q.length = 4)
    (haQ : a ∈ Q) (ha : ∀ q ∈ Q, q ≠ a → a.1 + a.2 < q.1 + q.2)
    (hbQ : b ∈ Q) (hb : ∀ q ∈ Q, q ≠ b → q.1 - q.2 < b.1 - b.2)
    (hcQ : c ∈ Q) (hc : ∀ q ∈ Q, q ≠ c → q.1 + q.2 < c.1 + c.2)
    (hdQ : d ∈ Q) (hd : ∀ q ∈ Q, q ≠ d → d.1 - d.2 < q.1 - q.2) :
    order_corners Q = [a, b, c, d] := by
  obtain ⟨q0, q1, q2, q3, rfl⟩ := exists_four_of_length Q h4
  simp only [List.mem_cons, List.not_mem_nil, or_false] at haQ hbQ hcQ hdQ
  refine order_corners_four_eq q0 q1 q2 q3 a b c d haQ ?_ hbQ ?_ hcQ ?_ hdQ ?_
  · intro q hq hne
    exact ha q (by rcases hq with rfl | rfl | rfl | rfl <;> simp) hne
  · intro q hq hne
    have := hb q (by rcases hq with rfl | rfl | rfl | rfl <;> simp) hne
    linarith
  · intro q hq hne
    exact hc q (by rcases hq with rfl | rfl | rfl | rfl <;> simp) hne
  · intro q hq hne
    have := hd q (by rcases hq with rfl | rfl | rfl | rfl <;> simp) hne
    linarith

/-- Witness for the amended C5 on the concrete square `c5Quad`. -/
theorem c5_canonical_order_w :
    order_corners c5Quad
      = [((0 : ℚ), (0 : ℚ)), ((10 : ℚ), (0 : ℚ)), ((10 : ℚ), (10 : ℚ)),
         ((0 : ℚ), (10 : ℚ))] :=
  c5_canonical_order c5Quad ((0 : ℚ), (0 : ℚ)) ((10 : ℚ), (0 : ℚ))
    ((10 : ℚ), (10 : ℚ)) ((0 : ℚ), (10 : ℚ)) (by norm_num [c5Quad])
    (by simp [c5Quad])
    (by
      intro q hq hne
      simp only [c5Quad, List.mem_cons, List.not_mem_nil, or_false] at hq
      rcases hq with rfl | rfl | rfl | rfl <;>
        first | (exact absurd rfl hne) | norm_num)
    (by simp [c5Quad])
    (by
      intro q hq hne
      simp only [c5Quad, List.mem_cons, List.not_mem_nil, or_false] at hq
      rcases hq with rfl | rfl | rfl | rfl <;>
        first | (exact absurd rfl hne) | norm_num)
    (by simp [c5Quad])
    (by
      intro q hq hne
      simp only [c5Quad, List.mem_cons, List.not_mem_nil, or_false] at hq
      rcases hq with rfl | rfl | rfl | rfl <;>
        first | (exact absurd rfl hne) | norm_num)
    (by simp [c5Quad])
    (by
      intro q hq hne
      simp only [c5Quad, List.mem_cons, List.not_mem_nil, or_false] at hq
      rcases hq with rfl | rfl | rfl | rfl <;>
        first | (exact absurd rfl hne) | norm_num)

/-- C6 (corner-ordering idempotence): for every 4-point quadrilateral of
four distinct points with unique extremizers of the ordering criteria,
applying the corner-ordering operation twice equals applying it once. -/
theorem c6_order_idempotent (Q : List Pt) (h4 : Q.length = 4)
    (hdist : Q.Pairwise (· ≠ ·))
    (hms : ∃ x ∈ Q, ∀ q ∈ Q, q ≠ x → x.1 + x.2 < q.1 + q.2)
    (hMs : ∃ x ∈ Q, ∀ q ∈ Q, q ≠ x → q.1 + q.2 < x.1 + x.2)
    (hmd : ∃ x ∈ Q, ∀ q ∈ Q, q ≠ x → x.2 - x.1 < q.2 - q.1)
    (hMd : ∃ x ∈ Q, ∀ q ∈ Q, q ≠ x → q.2 - q.1 < x.2 - x.1) :
    order_corners (order_corners Q) = order_corners Q := by
  obtain ⟨q0, q1, q2, q3, rfl⟩ := exists_four_of_length Q h4
  obtain ⟨a, haQ, ha⟩ := hms
  obtain ⟨c, hcQ, hc⟩ := hMs
  obtain ⟨b, hbQ, hb⟩ := hmd
  obtain ⟨d, hdQ, hd⟩ := hMd
  simp only [List.mem_cons, List.not_mem_nil, or_false] at haQ hbQ hcQ hdQ
  have ha2 : ∀ q, (q = q0 ∨ q = q1 ∨ q = q2 ∨ q = q3) → q ≠ a →
      a.1 + a.2 < q.1 + q.2 := by
    intro q hq hne
    exact ha q (by rcases hq with rfl | rfl | rfl | rfl <;> simp) hne
  have hb2 : ∀ q, (q = q0 ∨ q = q1 ∨ q = q2 ∨ q = q3) → q ≠ b →
      b.2 - b.1 < q.2 - q.1 := by
    intro q hq hne
    exact hb q (by rcases hq with rfl | rfl | rfl | rfl <;> simp) hne
  have hc2 : ∀ q, (q = q0 ∨ q = q1 ∨ q = q2 ∨ q = q3) → q ≠ c →
      q.1 + q.2 < c.1 + c.2 := by
    intro q hq hne
    exact hc q (by rcases hq with rfl | rfl | rfl | rfl <;> simp) hne
  have hd2 : ∀ q, (q = q0 ∨ q = q1 ∨ q = q2 ∨ q = q3) → q ≠ d →
      q.2 - q.1 < d.2 - d.1 := by
    intro q hq hne
    exact hd q (by rcases hq with rfl | rfl | rfl | rfl <;> simp) hne
  have e0 : order_corners [q0, q1, q2, q3] = [a, b, c, d] :=
    order_corners_four_eq q0 q1 q2 q3 a b c d haQ ha2 hbQ hb2 hcQ hc2 hdQ hd2
  have haR : ∀ q, (q = a ∨ q = b ∨ q = c ∨ q = d) → q ≠ a →
      a.1 + a.2 < q.1 + q.2 := by
    intro q hq hne
    exact ha2 q (by rcases hq with rfl | rfl | rfl | rfl <;> tauto) hne
  have hbR : ∀ q, (q = a ∨ q = b ∨ q = c ∨ q = d) → q ≠ b →
      b.2 - b.1 < q.2 - q.1 := by
    intro q hq hne
    exact hb2 q (by rcases hq with rfl | rfl | rfl | rfl <;> tauto) hne
  have hcR : ∀ q, (q = a ∨ q = b ∨ q = c ∨ q = d) → q ≠ c →
      q.1 + q.2 < c.1 + c.2 := by
    intro q hq hne
    exact hc2 q (by rcases hq with rfl | rfl | rfl | rfl <;> tauto) hne
  have hdR : ∀ q, (q = a ∨ q = b ∨ q = c ∨ q = d) → q ≠ d →
      q.2 - q.1 < d.2 - d.1 := by
    intro q hq hne
    exact hd2 q (by rcases hq with rfl | rfl | rfl | rfl <;> tauto) hne
  have e1 : order_corners [a, b, c, d] = [a, b, c, d] :=
    order_corners_four_eq a b c d a b c d (Or.inl rfl) haR
      (Or.inr (Or.inl rfl)) hbR (Or.inr (Or.inr (Or.inl rfl))) hcR
      (Or.inr (Or.inr (Or.inr rfl))) hdR
  rw [e0, e1]

/-- Witness for C6 on the concrete skewed quadrilateral `c6Quad`. -/
theorem c6_order_idempotent_w :
    order_corners (order_corners c6Quad) = order_corners c6Quad :=
  c6_order_idempotent c6Quad (by norm_num [c6Quad])
    (by decide)
    ⟨((0 : ℚ), (0 : ℚ)), by simp [c6Quad], by
      intro q hq hne
      simp only [c6Quad, List.mem_cons, List.not_mem_nil, or_false] at hq
      rcases hq with rfl | rfl | rfl | rfl <;>
        first | (exact absurd rfl hne) | norm_num⟩
    ⟨((5 : ℚ), (6 : ℚ)), by simp [c6Quad], by
      intro q hq hne
      simp only [c6Quad, List.mem_cons, List.not_mem_nil, or_false] at hq
      rcases hq with rfl | rfl | rfl | rfl <;>
        first | (exact absurd rfl hne) | norm_num⟩
    ⟨((4 : ℚ), (1 : ℚ)), by simp [c6Quad], by
      intro q hq hne
      simp only [c6Quad, List.mem_cons, List.not_mem_nil, or_false] at hq
      rcases hq with rfl | rfl | rfl | rfl <;>
        first | (exact absurd rfl hne) | norm_num⟩
    ⟨((1 : ℚ), (5 : ℚ)), by simp [c6Quad], by
      intro q hq hne
      simp only [c6Quad, List.mem_cons, List.not_mem_nil, or_false] at hq
      rcases hq with rfl | rfl | rfl | rfl <;>
        first | (exact absurd rfl hne) | norm_num⟩
